import Mathlib

/-!
Verification of the expected-value combat engine of `RPG_build_cms`
(`src/engine.py`) against its natural-language specification.

The engine is shallowly embedded: Python floats are modelled as exact
rationals (ℚ), Python dicts of stats as association lists, and the
recursive trigger walk / tick loop as structurally recursive functions.
Behaviour that the source realises through Python dynamic typing
(attribute access on `None`) is modelled with `Except`.
-/

/-- Stat tables:`self.stats` and per-node resolved stat dicts are string-keyed
float dicts; we model them as insertion-ordered association lists. -/
abbrev StatTable := List (String × ℚ)

/-- Lookup with default, modelling Python `d.get(k, default)`. -/
def dictGetD (d : StatTable) (k : String) (default : ℚ) : ℚ :=
  match d.find? (fun p => p.1 == k) with
  | some p => p.2
  | none => default

/-- Write `d[k] = v`, modelling Python dict assignment (replace in place,
append at the end when the key is new). -/
def dictSet (d : StatTable) (k : String) (v : ℚ) : StatTable :=
  if d.any (fun p => p.1 == k) then
    d.map (fun p => if p.1 == k then (k, v) else p)
  else
    d ++ [(k, v)]

/-- Python `int(x)` on a float: truncation toward zero. -/
def py_int (x : ℚ) : ℤ :=
  if 0 ≤ x then ⌊x⌋ else ⌈x⌉

/-- Numeric value denoted by Python `f"{x:.2f}"` (the engine later parses this
string back with `float(...)`): rounding to two decimal places. Exact decimal
ties (`.xx5`) are rounded half-up here; the source rounds the underlying
binary double half-even, and no value used in this development sits on a tie. -/
def round2 (x : ℚ) : ℚ := (round (x * 100) : ℚ) / 100

/-- Numeric value denoted by Python `round(x, 1)` / `f"{x:.1f}"`,
with the same tie caveat as `round2`. -/
def round1 (x : ℚ) : ℚ := (round (x * 10) : ℚ) / 10

/-- The engine's `clamp01` helper inside `simulate_chain_with_profile`:
`0.0 if x < 0 else (1.0 if x > 1 else x)`. -/
def clamp01 (x : ℚ) : ℚ :=
  if x < 0 then 0 else if 1 < x then 1 else x

/-- Effects block of a skill (`skill["effects"]`), a dict of optional keys.
The source reads each key with `.get(key, 0.0) or 0.0`; `none` models an
absent key. An absent or empty effects dict is modelled as `none` on the
skill (the source treats an empty dict identically via `if effects:`). -/
structure Effects where
  icd : Option ℚ
  heal_percent_max_hp : Option ℚ
  damage_taken_mult : Option ℚ
  duration : Option ℚ
deriving DecidableEq, Repr

/-- One entry of `skill["damage_components"]`; `none` fields model absent
dict keys, with the defaults the source supplies at each `.get` site. -/
structure DamageComponent where
  dmin : Option ℚ
  dmax : Option ℚ
  dtype : Option String
  scaling_source : Option String
  scaling_coef : Option ℚ
deriving DecidableEq, Repr

/-- A skill data dict: the fields of `skill_data` that the engine reads. -/
structure Skill where
  sid : Option String
  sname : Option String
  damage_components : List DamageComponent
  effects : Option Effects
deriving DecidableEq, Repr

/-- A modifier dict: the engine only reads `mod["stats"]`. -/
structure Modifier where
  stats : List (String × ℚ)
deriving DecidableEq, Repr

/-- Skill-chain node (`class SkillNode`): a skill, node-scoped modifiers, and
trigger edges `(condition, child)`. -/
inductive SkillNode where
  | mk (skill : Skill) (modifiers : List Modifier) (triggers : List (String × SkillNode))

def SkillNode.skill : SkillNode → Skill
  | .mk s _ _ => s

def SkillNode.modifiers : SkillNode → List Modifier
  | .mk _ m _ => m

def SkillNode.triggers : SkillNode → List (String × SkillNode)
  | .mk _ _ t => t

/-- Embedding of `_apply_modifier_stats`: fold every modifier's stat dict
into a copy of the base table, multiplying keys that end in `_mult`
(seeded at 1.0) and adding all others (seeded at 0.0). -/
def apply_modifier_stats (base : StatTable) (mods : List Modifier) : StatTable :=
  mods.foldl
    (fun temp m =>
      m.stats.foldl
        (fun temp kv =>
          if kv.1.endsWith "_mult" then
            dictSet temp kv.1 (dictGetD temp kv.1 1 * kv.2)
          else
            dictSet temp kv.1 (dictGetD temp kv.1 0 + kv.2))
        temp)
    base

/-- Damage type of a component: `comp.get('type', 'physical')`. -/
def comp_dtype (c : DamageComponent) : String := c.dtype.getD "physical"

/-- Whether a damage type gets the elemental bonus:
`dtype in ("fire", "cold", "lightning")`. -/
def is_elemental (t : String) : Bool :=
  t == "fire" || t == "cold" || t == "lightning"

/-- Stage 1 of `_core_math`: `(min+max)/2 + source_val*scale_coef + flat_bonus`. -/
def base_avg_of (c : DamageComponent) (stats : StatTable) : ℚ :=
  (c.dmin.getD 0 + c.dmax.getD 0) / 2
    + dictGetD stats (c.scaling_source.getD "base_atk") 0 * c.scaling_coef.getD 1
    + dictGetD stats ("flat_" ++ comp_dtype c) 0

/-- Additive ("inc") stage of `_core_math`: `1 + inc_all + inc_<type>`,
additionally multiplied by `1 + inc_elemental` for elemental types. -/
def inc_of (c : DamageComponent) (stats : StatTable) : ℚ :=
  let inc := 1 + dictGetD stats "inc_all" 0 + dictGetD stats ("inc_" ++ comp_dtype c) 0
  if is_elemental (comp_dtype c) then inc * (1 + dictGetD stats "inc_elemental" 0) else inc

/-- Multiplicative ("more") stage of `_core_math`:
`more = 1.0 * (1.0 + more_damage)`. -/
def more_of (stats : StatTable) : ℚ :=
  1 * (1 + dictGetD stats "more_damage" 0)

/-- Value after the additive stage: `base_avg * inc` (before the more stage). -/
def post_additive_of (c : DamageComponent) (stats : StatTable) : ℚ :=
  base_avg_of c stats * inc_of c stats

/-- The source's `hit_dmg = base_avg * inc * more`. -/
def hit_dmg_of (c : DamageComponent) (stats : StatTable) : ℚ :=
  base_avg_of c stats * inc_of c stats * more_of stats

/-- Crit rate as used by `_core_math`: `min(1.0, max(0.0, crit_rate))`
with stat default 0.05. -/
def crit_rate_of (stats : StatTable) : ℚ :=
  min 1 (max 0 (dictGetD stats "crit_rate" (5/100)))

/-- Crit damage multiplier stat, default 1.5. -/
def crit_dmg_of (stats : StatTable) : ℚ :=
  dictGetD stats "crit_dmg" (3/2)

/-- The source's `avg_hit = hit_dmg*(1-crit_rate) + hit_dmg*crit_dmg*crit_rate`. -/
def avg_hit_of (c : DamageComponent) (stats : StatTable) : ℚ :=
  hit_dmg_of c stats * (1 - crit_rate_of stats)
    + hit_dmg_of c stats * crit_dmg_of stats * crit_rate_of stats

/-- Result record of `_core_math`. -/
structure CoreRes where
  dps : ℚ
  avg_hit : ℚ
  aps : ℚ
  crit_rate : ℚ
  dmg_type : String
deriving DecidableEq, Repr

/-- Embedding of `_core_math`: single-node average hit and DPS, no triggers.
A skill with no damage components yields the zero record. -/
def core_math (skill : Skill) (stats : StatTable) : CoreRes :=
  match skill.damage_components with
  | [] => ⟨0, 0, dictGetD stats "atk_spd" 1, 0, "none"⟩
  | c :: _ =>
    let avg := avg_hit_of c stats
    let aps := dictGetD stats "atk_spd" 1
    ⟨avg * aps, avg, aps, crit_rate_of stats, comp_dtype c⟩

/-- The engine's nested `expected_proc_rate(freq, icd)` helper. -/
def expected_proc_rate (freq icd : ℚ) : ℚ :=
  if icd ≤ 0 then max 0 freq else min (max 0 freq) (1 / icd)

/-- Proc rate of one trigger edge: the `if/elif` chain on the condition tag
inside `walk` (`on_crit`, `on_hit`, `fixed_chance_20`, `hp_lt_30`;
anything else keeps the initial `trigger_freq = 0.0`). -/
def cond_rate (cond : String) (aps crit_rate hp_pct : ℚ) : ℚ :=
  if cond = "on_crit" then aps * crit_rate
  else if cond = "on_hit" then aps
  else if cond = "fixed_chance_20" then aps * (2/10)
  else if cond = "hp_lt_30" then (if hp_pct < 3/10 then aps else 0)
  else 0

/-- Side-effect profile accumulated by the walk. -/
structure Profile where
  heal_per_sec : ℚ
  damage_taken_mult : ℚ
  uptime_guard : ℚ
deriving DecidableEq, Repr

/-- The engine's nested `merge_profile`: heals add, damage-taken multipliers
compose multiplicatively, guard uptime takes the max. -/
def merge_profile (p c : Profile) : Profile :=
  ⟨p.heal_per_sec + c.heal_per_sec,
   p.damage_taken_mult * c.damage_taken_mult,
   max p.uptime_guard c.uptime_guard⟩

/-- Node profile produced by the `if effects:` block of `walk`: expected heal
per second and duration-blended expected damage-taken multiplier. `max_hp`
is read from the engine-level stats (not the node-modified stats), `freq`
is the node's attack rate. -/
def effects_profile (engine_stats : StatTable) (eff : Effects) (aps : ℚ) : Profile :=
  let max_hp := dictGetD engine_stats "max_hp" 500
  let proc := expected_proc_rate aps (eff.icd.getD 0)
  let heal_pct := eff.heal_percent_max_hp.getD 0
  let heal := if 0 < heal_pct then proc * heal_pct * max_hp else 0
  match eff.damage_taken_mult with
  | some dm =>
    if 0 < eff.duration.getD 0 then
      let uptime := clamp01 (proc * eff.duration.getD 0)
      ⟨heal, uptime * dm + (1 - uptime) * 1, max 0 uptime⟩
    else ⟨heal, 1, 0⟩
  | none => ⟨heal, 1, 0⟩

/-- One per-node log line. The source stores `dps` already truncated by
`int(...)` and `aps` as the string `f"{x:.2f}"`; we store the rational
value that string denotes. -/
structure LogEntry where
  skill : String
  role : String
  dps : ℤ
  aps : ℚ
  info : String
deriving DecidableEq, Repr

/-- Display label of a skill: `skill.get('name', skill.get('id'))`,
with Python's `str(None)` for a fully anonymous skill. -/
def skill_label (s : Skill) : String :=
  ((s.sname).orElse (fun _ => s.sid)).getD "None"

/-- Return value of `walk`: accumulated dps, log lines and profile. -/
structure WalkRes where
  dps : ℚ
  logs : List LogEntry
  profile : Profile
deriving DecidableEq, Repr

/-- Native attack rate the source recovers from a child's first log line:
`float(child_logs[0].get("aps", 1.0) or 1.0)` followed by the
`if child_native_aps <= 0: child_native_aps = 1.0` guard. -/
def child_native_aps (cres : WalkRes) : ℚ :=
  match cres.logs with
  | e :: _ => if e.aps ≤ 0 then 1 else e.aps
  | [] => 1

/-- The per-node computation shared by every visit of `walk`: resolved
node stats, `_core_math` result of the node's skill. -/
def node_base_res (stats : StatTable) (node : SkillNode) : CoreRes :=
  core_math node.skill (apply_modifier_stats stats node.modifiers)

/-- The accumulator `walk` sets up before processing triggers: the node's
own dps, its base log line (role `Main` at depth 0, `Sub` below), and the
node profile produced by the skill's effects block. -/
def node_base_walkres (stats : StatTable) (node : SkillNode) (is_root : Bool) : WalkRes :=
  ⟨(node_base_res stats node).dps,
   [⟨skill_label node.skill, if is_root then "Main" else "Sub",
     py_int (node_base_res stats node).dps,
     round2 (node_base_res stats node).aps, "base"⟩],
   match node.skill.effects with
   | some eff => effects_profile stats eff (node_base_res stats node).aps
   | none => ⟨0, 1, 0⟩⟩

/-- One iteration of the `for trig in node.triggers` loop of `walk`:
skip the edge when its proc rate is not positive, otherwise evaluate the
child (through `eval_child`, the recursive call one level deeper), rescale
its dps by `trigger_freq / child_native_aps`, log it and merge profiles. -/
def walk_step (hp_pct : ℚ) (base_res : CoreRes) (eval_child : SkillNode → WalkRes)
    (acc : WalkRes) (t : String × SkillNode) : WalkRes :=
  let freq := cond_rate t.1 base_res.aps base_res.crit_rate hp_pct
  if freq ≤ 0 then acc
  else
    let cres := eval_child t.2
    let real_dps := cres.dps / child_native_aps cres * freq
    ⟨acc.dps + real_dps,
     acc.logs ++ [⟨"↳ " ++ skill_label t.2.skill, "Trigger",
                   py_int real_dps, round2 freq, "via " ++ t.1⟩],
     merge_profile acc.profile cres.profile⟩

/-- Embedding of the recursive `walk(node, depth)` inside
`simulate_chain_with_profile`. The first argument is the remaining depth
budget `max_depth - depth`, so `0` is the `depth >= max_depth` cutoff;
the final `Bool` tells whether `depth == 0` (log role `Main` vs `Sub`).
Note the child logs returned by the recursive call are merged into the
accumulated dps and profile but never into the parent's log list. -/
def walk (stats : StatTable) (hp_pct : ℚ) : ℕ → SkillNode → Bool → WalkRes
  | 0, node, is_root => node_base_walkres stats node is_root
  | r + 1, node, is_root =>
    node.triggers.foldl
      (walk_step hp_pct (node_base_res stats node) (fun c => walk stats hp_pct r c false))
      (node_base_walkres stats node is_root)

/-- Embedding of `simulate_chain_with_profile(root_node, max_depth)`. The
hero health fraction (`self.simulation_state["hp_percent"]`, consumed by
`hp_lt_30` triggers) is passed explicitly. -/
def simulate_chain_with_profile (stats : StatTable) (hp_pct : ℚ)
    (root : SkillNode) (max_depth : ℕ) : WalkRes :=
  walk stats hp_pct max_depth root true

/-- Python exceptions that the embedded engine can raise. -/
inductive PyErr where
  | attributeError
deriving DecidableEq, Repr

/-- Tree evaluation as callable with a possibly-absent root node: a call
with `root_node = None` reaches `node.modifiers` inside `walk` and raises
`AttributeError` (modelled as `Except.error`). -/
def simulate_chain_opt (stats : StatTable) (hp_pct : ℚ)
    (root : Option SkillNode) (max_depth : ℕ) : Except PyErr WalkRes :=
  match root with
  | none => .error .attributeError
  | some node => .ok (simulate_chain_with_profile stats hp_pct node max_depth)

/-- One sample of the per-tick timeline (`hero_hp`/`enemy_hp` are stored
through `int(max(x, 0))` in the source). -/
structure TimelineEntry where
  time : ℚ
  hero_hp : ℤ
  enemy_hp : ℤ
  is_crit : Bool
deriving DecidableEq, Repr

/-- Entries of the textual `combat_log`. The source appends formatted
strings; we record the event kind and the numeric payloads embedded in
each string (`f"{time:.1f}"` and the `int(...)` damage/heal figures). -/
inductive CombatEvent where
  | bossCrit (time : ℚ) (dmg : ℤ)
  | emergencyHeal (time : ℚ) (hps : ℤ)
  | heroDead (time : ℚ)
  | enemyDead (time : ℚ)
  | timeout (time : ℚ)
deriving DecidableEq, Repr

/-- The full result record of `simulate_mvp_fight`, including the
determinism header attached before hashing. -/
structure FightResult where
  result : String
  time : ℚ
  reason : String
  timeline : List TimelineEntry
  logs : List LogEntry
  combat_log : List CombatEvent
  seed : ℤ
  dt : ℚ
  boss_crit_interval : ℚ
  boss_crit_mult : ℚ
  engine_version : String
  result_hash : ℕ
deriving DecidableEq, Repr

/-- `DiabloEngine.version()`. -/
def engine_version : String := "0.2-seed-deterministic"

def hash_step (h n : ℕ) : ℕ := (h * 1000003 + n) % (2 ^ 64)

def hash_string (h : ℕ) (s : String) : ℕ :=
  s.foldl (fun a c => hash_step a c.toNat) (hash_step h 1)

def hash_int (h : ℕ) (n : ℤ) : ℕ :=
  hash_step (hash_step h (if n < 0 then 2 else 3)) n.natAbs

def hash_q (h : ℕ) (q : ℚ) : ℕ :=
  hash_step (hash_int h q.num) q.den

def hash_bool (h : ℕ) (b : Bool) : ℕ := hash_step h (if b then 5 else 6)

def hash_timeline_entry (h : ℕ) (e : TimelineEntry) : ℕ :=
  hash_bool (hash_int (hash_int (hash_q h e.time) e.hero_hp) e.enemy_hp) e.is_crit

def hash_log_entry (h : ℕ) (e : LogEntry) : ℕ :=
  hash_string (hash_q (hash_int (hash_string (hash_string h e.skill) e.role) e.dps) e.aps) e.info

def hash_combat_event (h : ℕ) : CombatEvent → ℕ
  | .bossCrit t d => hash_int (hash_q (hash_step h 10) t) d
  | .emergencyHeal t d => hash_int (hash_q (hash_step h 11) t) d
  | .heroDead t => hash_q (hash_step h 12) t
  | .enemyDead t => hash_q (hash_step h 13) t
  | .timeout t => hash_q (hash_step h 14) t

/-- Model of `_stable_hash` applied to the result record minus its
`result_hash` field (the source serializes the dict with sorted keys and
takes a SHA-256 prefix). We keep what the claims rely on: the hash is a
total deterministic function of the serialized record; the cryptographic
digest itself is replaced by a concrete rolling hash, since no claim
depends on particular digest values. -/
def stable_hash (result : String) (time : ℚ) (reason : String)
    (timeline : List TimelineEntry) (logs : List LogEntry)
    (combat_log : List CombatEvent) (seed : ℤ) (dt : ℚ)
    (boss_crit_interval boss_crit_mult : ℚ) (version : String) : ℕ :=
  let h0 := hash_string (hash_q (hash_string 7 result) time) reason
  let h1 := timeline.foldl hash_timeline_entry (hash_step h0 20)
  let h2 := logs.foldl hash_log_entry (hash_step h1 21)
  let h3 := combat_log.foldl hash_combat_event (hash_step h2 22)
  hash_string (hash_q (hash_q (hash_q (hash_int h3 seed) dt) boss_crit_interval) boss_crit_mult) version

/-- Assemble a terminal result record, attaching the determinism header and
the fingerprint exactly as the three `return` sites of the source do. -/
def mk_fight_result (result : String) (time : ℚ) (reason : String)
    (timeline : List TimelineEntry) (logs : List LogEntry)
    (combat_log : List CombatEvent) (seed : ℤ) (dt : ℚ)
    (boss_crit_interval boss_crit_mult : ℚ) : FightResult :=
  ⟨result, time, reason, timeline, logs, combat_log, seed, dt,
   boss_crit_interval, boss_crit_mult, engine_version,
   stable_hash result time reason timeline logs combat_log seed dt
     boss_crit_interval boss_crit_mult engine_version⟩

/-- Configuration of one fight, fixed across ticks. -/
structure FightParams where
  stats : StatTable
  root : SkillNode
  enemy_dps : ℚ
  max_time : ℚ
  dt : ℚ
  seed : ℤ
  boss_crit_interval : ℚ
  boss_crit_mult : ℚ
  max_depth : ℕ

/-- Mutable state of the tick loop. `last_logs` holds the per-node log of
the most recent tick (the Python local `logs`; the source would raise
`NameError` on a timeout with zero executed ticks, a case no claim uses). -/
structure FightState where
  time : ℚ
  hero_hp : ℚ
  hero_max_hp : ℚ
  enemy_hp : ℚ
  last_crit_time : ℚ
  timeline : List TimelineEntry
  combat_log : List CombatEvent
  last_logs : List LogEntry

/-- Tick step 1: `hp_pct = max(0.0, hero_hp / max(hero_max_hp, 1.0))`. -/
def tick_hp_pct (st : FightState) : ℚ :=
  max 0 (st.hero_hp / max st.hero_max_hp 1)

/-- Tick step 2: fresh tree evaluation for the current health fraction. -/
def tick_chain (p : FightParams) (st : FightState) : WalkRes :=
  simulate_chain_with_profile p.stats (tick_hp_pct st) p.root p.max_depth

/-- Tick step 3: enemy health after the player's expected damage. -/
def tick_enemy_hp (p : FightParams) (st : FightState) : ℚ :=
  st.enemy_hp - (tick_chain p st).dps * p.dt

/-- Whether this tick carries the periodic boss burst:
`time - last_crit_time >= boss_crit_interval`. -/
def tick_is_crit (p : FightParams) (st : FightState) : Bool :=
  decide (p.boss_crit_interval ≤ st.time - st.last_crit_time)

/-- Incoming damage this tick, after the burst multiplier. -/
def tick_incoming (p : FightParams) (st : FightState) : ℚ :=
  if tick_is_crit p st then p.enemy_dps * p.dt * p.boss_crit_mult
  else p.enemy_dps * p.dt

/-- Composed damage-taken multiplier, clamped to `[0.1, 2.0]`. -/
def tick_final_mult (p : FightParams) (st : FightState) : ℚ :=
  max (1/10) (min 2
    (dictGetD p.stats "damage_taken_mult" 1 * (tick_chain p st).profile.damage_taken_mult))

/-- Hero health after the boss damage, before healing. -/
def tick_hero_hp1 (p : FightParams) (st : FightState) : ℚ :=
  st.hero_hp - tick_incoming p st * tick_final_mult p st

/-- Expected heal applied this tick. -/
def tick_heal_amt (p : FightParams) (st : FightState) : ℚ :=
  (tick_chain p st).profile.heal_per_sec * p.dt

/-- Hero health after the heal stage: healing only fires when positive and
the hero is below full health, and is clamped at `hero_max_hp`. -/
def tick_hero_hp2 (p : FightParams) (st : FightState) : ℚ :=
  if 0 < tick_heal_amt p st ∧ tick_hero_hp1 p st < st.hero_max_hp then
    min st.hero_max_hp (tick_hero_hp1 p st + tick_heal_amt p st)
  else tick_hero_hp1 p st

/-- The combat-log lines appended during one tick (burst warning, then the
emergency-heal line when the heal fires below 30% health). -/
def tick_events (p : FightParams) (st : FightState) : List CombatEvent :=
  (if tick_is_crit p st then
    [CombatEvent.bossCrit (round1 st.time) (py_int (tick_incoming p st / p.dt))]
   else [])
  ++ (if 0 < tick_heal_amt p st ∧ tick_hero_hp1 p st < st.hero_max_hp
        ∧ tick_hero_hp1 p st < st.hero_max_hp * (3/10) then
        [CombatEvent.emergencyHeal (round1 st.time) (py_int (tick_heal_amt p st / p.dt))]
      else [])

/-- The timeline sample recorded at the end of one tick. -/
def tick_timeline_entry (p : FightParams) (st : FightState) : TimelineEntry :=
  ⟨round1 st.time, py_int (max (tick_hero_hp2 p st) 0),
   py_int (max (tick_enemy_hp p st) 0), tick_is_crit p st⟩

/-- Loop state at the start of the next tick. -/
def next_state (p : FightParams) (st : FightState) : FightState :=
  ⟨st.time + p.dt, tick_hero_hp2 p st, st.hero_max_hp, tick_enemy_hp p st,
   (if tick_is_crit p st then st.time else st.last_crit_time),
   st.timeline ++ [tick_timeline_entry p st],
   st.combat_log ++ tick_events p st,
   (tick_chain p st).logs⟩

/-- The LOSE result returned mid-tick when the hero dies. -/
def lose_result (p : FightParams) (st : FightState) : FightResult :=
  mk_fight_result "LOSE" (round2 st.time) "hero_dead"
    (st.timeline ++ [tick_timeline_entry p st]) (tick_chain p st).logs
    (st.combat_log ++ tick_events p st ++ [CombatEvent.heroDead (round1 st.time)])
    p.seed p.dt p.boss_crit_interval p.boss_crit_mult

/-- The WIN result returned mid-tick when the enemy dies. -/
def win_result (p : FightParams) (st : FightState) : FightResult :=
  mk_fight_result "WIN" (round2 st.time) "enemy_dead"
    (st.timeline ++ [tick_timeline_entry p st]) (tick_chain p st).logs
    (st.combat_log ++ tick_events p st ++ [CombatEvent.enemyDead (round1 st.time)])
    p.seed p.dt p.boss_crit_interval p.boss_crit_mult

/-- The TIMEOUT result returned when the `while time < max_time` condition
fails. Note the source reports `round(max_time, 2)` as the time and the
reason string `damage_insufficient`. -/
def timeout_result (p : FightParams) (st : FightState) : FightResult :=
  mk_fight_result "TIMEOUT" (round2 p.max_time) "damage_insufficient"
    st.timeline st.last_logs
    (st.combat_log ++ [CombatEvent.timeout (round1 st.time)])
    p.seed p.dt p.boss_crit_interval p.boss_crit_mult

/-- Opaque stand-in for the state of `random.Random(seed)`: the source
creates the generator and never draws from it, so we only thread the
state through to make that fact provable. -/
abbrev Rng := ℕ

/-- The `while time < max_time` loop of `simulate_mvp_fight`, as fuelled
recursion. Each iteration either returns a terminal result or advances the
state by one tick; when the loop condition fails the TIMEOUT result is
returned. The fuel-exhaustion branch also returns the TIMEOUT record; the
top-level entry point always supplies enough fuel for the loop to exit on
its own condition (for `dt > 0`; the Python loop diverges for `dt <= 0`). -/
def fight_loop (p : FightParams) : ℕ → FightState → Rng → FightResult × Rng
  | 0, st, rng => (timeout_result p st, rng)
  | fuel + 1, st, rng =>
    if st.time < p.max_time then
      if tick_hero_hp2 p st ≤ 0 then (lose_result p st, rng)
      else if tick_enemy_hp p st ≤ 0 then (win_result p st, rng)
      else fight_loop p fuel (next_state p st) rng
    else (timeout_result p st, rng)

/-- Fuel sufficient for `fight_loop` to reach its own exit condition:
ticks advance time by `dt`, so `⌈max_time / dt⌉ + 1` iterations suffice. -/
def fight_fuel (max_time dt : ℚ) : ℕ :=
  if 0 < dt then (⌈max_time / dt⌉).toNat + 1 else 1

/-- Embedding of `simulate_mvp_fight`: the hero starts at the engine's
`max_hp` stat (default 500), `last_crit_time = -boss_crit_interval` so the
first tick always carries a burst, and the fresh RNG state is threaded
through the loop. -/
def simulate_mvp_fight (stats : StatTable) (root : SkillNode)
    (enemy_hp enemy_dps max_time dt : ℚ) (seed : ℤ)
    (boss_crit_interval boss_crit_mult : ℚ) (max_depth : ℕ)
    (rng : Rng) : FightResult × Rng :=
  let p : FightParams :=
    ⟨stats, root, enemy_dps, max_time, dt, seed,
     boss_crit_interval, boss_crit_mult, max_depth⟩
  let hero_hp := dictGetD stats "max_hp" 500
  fight_loop p (fight_fuel max_time dt)
    ⟨0, hero_hp, hero_hp, enemy_hp, -boss_crit_interval, [], [], []⟩ rng

/-- Fallback the source applies to the parsed child aps:
`float(... or 1.0)` plus the `<= 0` guard collapse to "replace
non-positive values by 1". -/
def aps_fallback (a : ℚ) : ℚ := if a ≤ 0 then 1 else a

/-- Exact (untruncated) dps contribution of each processed trigger edge,
in log order: edges whose proc rate is not positive are skipped, the rest
contribute `child_dps / child_native_aps * trigger_freq`. -/
def step_contribs (hp_pct : ℚ) (base_res : CoreRes) (eval_child : SkillNode → WalkRes) :
    List (String × SkillNode) → List ℚ
  | [] => []
  | t :: rest =>
    let freq := cond_rate t.1 base_res.aps base_res.crit_rate hp_pct
    if freq ≤ 0 then step_contribs hp_pct base_res eval_child rest
    else
      ((eval_child t.2).dps / child_native_aps (eval_child t.2) * freq)
        :: step_contribs hp_pct base_res eval_child rest

/-- Exact contributions behind the log lines of one tree evaluation:
the root's own dps followed by the exact contribution of each processed
trigger edge (the logged `dps` fields are the `int(...)` truncations of
exactly these values). -/
def walk_exact_contribs (stats : StatTable) (hp_pct : ℚ) (node : SkillNode)
    (max_depth : ℕ) : List ℚ :=
  (node_base_res stats node).dps ::
    (match max_depth with
     | 0 => []
     | r + 1 =>
       step_contribs hp_pct (node_base_res stats node)
         (fun c => walk stats hp_pct r c false) node.triggers)

/-- The multiplicative bucket as the spec words it (second definition for a
refinement comparison, following the spec: the product of three independent
factors `(1 + more_global) x (1 + more_type) x (1 + more_elemental)` when
the type is elemental, reading the code's one global "more" stat
`more_damage` as `more_global`). -/
def spec_more_bucket (stats : StatTable) (t : String) : ℚ :=
  (1 + dictGetD stats "more_damage" 0) * (1 + dictGetD stats ("more_" ++ t) 0)
    * (if is_elemental t then 1 + dictGetD stats "more_elemental" 0 else 1)

/-- Sample fire skill component used by concrete witnesses. -/
def sampleComp : DamageComponent := ⟨some 10, some 20, some "fire", none, none⟩

/-- Sample skill used by concrete witnesses. -/
def sampleSkill : Skill := ⟨some "s1", some "Fireball", [sampleComp], none⟩

/-- Sample hero stats used by concrete witnesses. -/
def sampleStats : StatTable :=
  [("atk_spd", 2), ("crit_rate", 1/4), ("crit_dmg", 2), ("inc_elemental", 1/10)]

/-- Stats under which the spec's three-factor multiplicative bucket and the
code's single factor disagree: a per-type "more" stat the code never reads. -/
def cexMoreStats : StatTable := [("more_fire", 1)]

/-- Physical 100-100 component (average hit 102.5 at default crit). -/
def flatComp : DamageComponent := ⟨some 100, some 100, none, none, none⟩

/-- Single-component skill built on `flatComp`. -/
def flatSkill : Skill := ⟨some "s", some "Strike", [flatComp], none⟩

/-- Leaf node for `flatSkill` (no modifiers, no triggers). -/
def flatNode : SkillNode := .mk flatSkill [] []

/-- Child modifiers giving the trigger-rounding counterexample its
`atk_spd = 1.234` (the engine divides by the 2-decimal logged value 1.23). -/
def cexChildMods : List Modifier := [⟨[("atk_spd", 234/1000)]⟩]

/-- Child node of the trigger-rounding counterexample. -/
def cexChild : SkillNode := .mk flatSkill cexChildMods []

/-- Parent node of the trigger-rounding counterexample: an `on_hit` edge
to `cexChild`. -/
def cexParent : SkillNode := .mk flatSkill [] [("on_hit", cexChild)]

/-- Base stats of the trigger-rounding counterexample (parent attack rate 1,
child attack rate 1 + 0.234). -/
def cexStats : StatTable := [("atk_spd", 1)]

/-- Hero stats of the concrete fight runs. -/
def fightStats : StatTable := [("max_hp", 100)]

/-- Effects block used by the mitigation witness: damage-taken multiplier
0.7 for 0.5 seconds, no ICD. -/
def mitEff : Effects := ⟨none, none, some (7/10), some (1/2)⟩

/-! Helper lemmas shared by the claim theorems. -/

lemma expected_proc_rate_nonneg (freq icd : ℚ) : 0 ≤ expected_proc_rate freq icd := by
  unfold expected_proc_rate
  split
  · exact le_max_left 0 freq
  · rename_i h
    refine le_min (le_max_left 0 freq) ?_
    have : 0 < icd := lt_of_not_le h
    positivity

lemma clamp01_eq_min (x : ℚ) (h : 0 ≤ x) : clamp01 x = min 1 x := by
  unfold clamp01
  rw [if_neg (not_lt.mpr h), min_def]
  split_ifs <;> linarith

/-! Theorems for the frozen claims. -/

/-- C5: for every skill with at least one damage component, `_core_math`
returns `average_hit = hit x (1 + c x (crit_dmg - 1))` where `c` is the
crit-rate stat clamped to `[0, 1]` (`crit_rate_of`) and `hit` the
post-bonus hit damage (`hit_dmg_of`). -/
theorem crit_expectation_identity (skill : Skill) (stats : StatTable)
    (c : DamageComponent) (rest : List DamageComponent)
    (h : skill.damage_components = c :: rest) :
    (core_math skill stats).avg_hit
      = hit_dmg_of c stats * (1 + crit_rate_of stats * (crit_dmg_of stats - 1)) := by
  have hc : core_math skill stats =
      ⟨avg_hit_of c stats * dictGetD stats "atk_spd" 1, avg_hit_of c stats,
       dictGetD stats "atk_spd" 1, crit_rate_of stats, comp_dtype c⟩ := by
    unfold core_math
    rw [h]
  rw [hc]
  show avg_hit_of c stats = _
  unfold avg_hit_of
  ring

/-- Witness for C5 at a concrete fire skill and stat table. -/
theorem crit_expectation_identity_witness :
    sampleSkill.damage_components = sampleComp :: []
  ∧ (core_math sampleSkill sampleStats).avg_hit
      = hit_dmg_of sampleComp sampleStats
          * (1 + crit_rate_of sampleStats * (crit_dmg_of sampleStats - 1)) :=
  ⟨rfl, crit_expectation_identity sampleSkill sampleStats sampleComp [] rfl⟩

/-- C2: the proc-rate laws of the trigger walk, as computed by `cond_rate`
(the embedded `if/elif` chain of `walk`): `on_hit` gives the parent attack
rate, `on_crit` attack rate x crit rate, `fixed_chance_20` attack rate x 0.2,
`hp_lt_30` attack rate exactly when the hero health fraction is below 0.3,
and every unrecognized tag gives 0. -/
theorem proc_rate_laws (aps crit hp_pct : ℚ) :
    cond_rate "on_hit" aps crit hp_pct = aps
  ∧ cond_rate "on_crit" aps crit hp_pct = aps * crit
  ∧ cond_rate "fixed_chance_20" aps crit hp_pct = aps * (2/10)
  ∧ cond_rate "hp_lt_30" aps crit hp_pct = (if hp_pct < 3/10 then aps else 0)
  ∧ ∀ cond : String, cond ≠ "on_crit" → cond ≠ "on_hit" →
      cond ≠ "fixed_chance_20" → cond ≠ "hp_lt_30" →
      cond_rate cond aps crit hp_pct = 0 := by
  refine ⟨by simp [cond_rate], by simp [cond_rate], by simp [cond_rate],
    by simp [cond_rate], ?_⟩
  intro cond h1 h2 h3 h4
  simp [cond_rate, h1, h2, h3, h4]

/-- Witness for C2: the laws evaluated at concrete rates, including an
unrecognized condition tag. -/
theorem proc_rate_laws_witness :
    cond_rate "on_hit" 2 (1/2) (1/4) = 2
  ∧ cond_rate "on_crit" 2 (1/2) (1/4) = 2 * (1/2)
  ∧ cond_rate "custom_proc" 2 (1/2) (1/4) = 0 :=
  ⟨(proc_rate_laws 2 (1/2) (1/4)).1,
   (proc_rate_laws 2 (1/2) (1/4)).2.1,
   (proc_rate_laws 2 (1/2) (1/4)).2.2.2.2 "custom_proc"
     (by decide) (by decide) (by decide) (by decide)⟩

/-- C6 counterexample: with a per-type more stat (`more_fire = 1`) on a fire
skill, the code's hit damage is NOT the post-additive value times the
spec's three-factor bucket — the code never reads `more_<type>` or
`more_elemental` stats. -/
theorem more_bucket_cex :
    hit_dmg_of sampleComp cexMoreStats
      ≠ post_additive_of sampleComp cexMoreStats
          * spec_more_bucket cexMoreStats (comp_dtype sampleComp) := by
  with_unfolding_all decide

/-- C6 amended: the multiplicative stage of `_core_math` is the single
global factor `1 + more_damage` applied to the post-additive value; there
are no per-type or per-elemental "more" buckets. -/
theorem more_bucket_single_factor (c : DamageComponent) (stats : StatTable) :
    hit_dmg_of c stats
      = post_additive_of c stats * (1 + dictGetD stats "more_damage" 0) := by
  unfold hit_dmg_of post_additive_of more_of
  ring

/-- C8: for an effects block declaring a damage-taken multiplier `m` with
positive duration `d`, the node profile's expected multiplier is
`uptime * m + (1 - uptime) * 1` with `uptime = clamp01(proc * d)`; the
uptime equals `min 1 (proc * d)`; a declared (positive) ICD caps the proc
rate at `min(max(0, freq), 1/icd)`; and when `proc * d = 1` the expected
multiplier equals the raw `m`. -/
theorem mitigation_blending (stats : StatTable) (eff : Effects) (aps m d : ℚ)
    (hm : eff.damage_taken_mult = some m) (hd : eff.duration = some d)
    (hdpos : 0 < d) :
    (effects_profile stats eff aps).damage_taken_mult
        = clamp01 (expected_proc_rate aps (eff.icd.getD 0) * d) * m
          + (1 - clamp01 (expected_proc_rate aps (eff.icd.getD 0) * d)) * 1
  ∧ clamp01 (expected_proc_rate aps (eff.icd.getD 0) * d)
      = min 1 (expected_proc_rate aps (eff.icd.getD 0) * d)
  ∧ (∀ freq icd : ℚ, 0 < icd →
      expected_proc_rate freq icd = min (max 0 freq) (1 / icd))
  ∧ (expected_proc_rate aps (eff.icd.getD 0) * d = 1 →
      (effects_profile stats eff aps).damage_taken_mult = m) := by
  have hmain :
      (effects_profile stats eff aps).damage_taken_mult
        = clamp01 (expected_proc_rate aps (eff.icd.getD 0) * d) * m
          + (1 - clamp01 (expected_proc_rate aps (eff.icd.getD 0) * d)) * 1 := by
    unfold effects_profile
    rw [hm, hd]
    simp [hdpos]
  refine ⟨hmain, ?_, ?_, ?_⟩
  · exact clamp01_eq_min _
      (mul_nonneg (expected_proc_rate_nonneg aps _) hdpos.le)
  · intro freq icd hicd
    unfold expected_proc_rate
    rw [if_neg (not_le.mpr hicd)]
  · intro h1
    rw [hmain, h1]
    have : clamp01 1 = 1 := by unfold clamp01; norm_num
    rw [this]
    ring

/-- Witness for C8: proc rate 2/s (no ICD) and duration 0.5s give uptime
exactly 1, so the expected multiplier equals the raw multiplier 0.7. -/
theorem mitigation_blending_witness :
    mitEff.damage_taken_mult = some (7/10)
  ∧ (0:ℚ) < 1/2
  ∧ (effects_profile [] mitEff 2).damage_taken_mult
      = clamp01 (expected_proc_rate 2 (mitEff.icd.getD 0) * (1/2)) * (7/10)
        + (1 - clamp01 (expected_proc_rate 2 (mitEff.icd.getD 0) * (1/2))) * 1
  ∧ (effects_profile [] mitEff 2).damage_taken_mult = 7/10 :=
  ⟨rfl, by norm_num,
   (mitigation_blending [] mitEff 2 (7/10) (1/2) rfl rfl (by norm_num)).1,
   (mitigation_blending [] mitEff 2 (7/10) (1/2) rfl rfl (by norm_num)).2.2.2
     (by with_unfolding_all decide)⟩

/-- C9 counterexample: tree evaluation with an absent root node does not
surface a distinct "cannot evaluate" result — it raises `AttributeError`
(`None.modifiers` inside `walk`), i.e. the evaluation ends in the modelled
unhandled-exception state. -/
theorem none_root_raises_cex :
    simulate_chain_opt fightStats 1 none 1 = Except.error PyErr.attributeError := rfl

/-- C9 amended: a `None` root always raises `AttributeError` out of the
tree evaluation (no distinct result record exists for the caller), while a
present root evaluates normally. -/
theorem none_root_attribute_error (stats : StatTable) (hp_pct : ℚ) (max_depth : ℕ) :
    simulate_chain_opt stats hp_pct none max_depth = Except.error PyErr.attributeError
  ∧ ∀ node : SkillNode, simulate_chain_opt stats hp_pct (some node) max_depth
      = Except.ok (simulate_chain_with_profile stats hp_pct node max_depth) :=
  ⟨rfl, fun _ => rfl⟩

lemma walk_step_logs (hp_pct : ℚ) (br : CoreRes) (ec : SkillNode → WalkRes)
    (acc : WalkRes) (t : String × SkillNode) :
    ∃ mid, (walk_step hp_pct br ec acc t).logs = acc.logs ++ mid := by
  by_cases hf : cond_rate t.1 br.aps br.crit_rate hp_pct ≤ 0
  · exact ⟨[], by simp [walk_step, hf]⟩
  · refine ⟨[⟨"↳ " ++ skill_label t.2.skill, "Trigger",
       py_int ((ec t.2).dps / child_native_aps (ec t.2)
         * cond_rate t.1 br.aps br.crit_rate hp_pct),
       round2 (cond_rate t.1 br.aps br.crit_rate hp_pct), "via " ++ t.1⟩], ?_⟩
    simp [walk_step, hf]

lemma foldl_walk_step_logs (hp_pct : ℚ) (br : CoreRes) (ec : SkillNode → WalkRes) :
    ∀ (trigs : List (String × SkillNode)) (acc : WalkRes),
      ∃ tail, (List.foldl (walk_step hp_pct br ec) acc trigs).logs = acc.logs ++ tail := by
  intro trigs
  induction trigs with
  | nil => intro acc; exact ⟨[], (List.append_nil _).symm⟩
  | cons t rest ih =>
    intro acc
    rw [List.foldl_cons]
    obtain ⟨mid, hmid⟩ := walk_step_logs hp_pct br ec acc t
    obtain ⟨tail, htail⟩ := ih (walk_step hp_pct br ec acc t)
    exact ⟨mid ++ tail, by rw [htail, hmid, List.append_assoc]⟩

lemma child_native_aps_eq (cres : WalkRes) (e : LogEntry) (tail : List LogEntry)
    (h : cres.logs = e :: tail) :
    child_native_aps cres = if e.aps ≤ 0 then 1 else e.aps := by
  unfold child_native_aps
  rw [h]

lemma child_native_aps_walk (stats : StatTable) (hp_pct : ℚ) (rem : ℕ)
    (child : SkillNode) (b : Bool) :
    child_native_aps (walk stats hp_pct rem child b)
      = aps_fallback (round2 (node_base_res stats child).aps) := by
  cases rem with
  | zero => rfl
  | succ r =>
    obtain ⟨tail, htail⟩ := foldl_walk_step_logs hp_pct (node_base_res stats child)
      (fun c => walk stats hp_pct r c false) child.triggers
      (node_base_walkres stats child b)
    have hcons : (walk stats hp_pct (r + 1) child b).logs
        = (⟨skill_label child.skill, if b then "Main" else "Sub",
            py_int (node_base_res stats child).dps,
            round2 (node_base_res stats child).aps, "base"⟩ : LogEntry) :: tail := by
      rw [show (walk stats hp_pct (r + 1) child b).logs
            = (List.foldl (walk_step hp_pct (node_base_res stats child)
                (fun c => walk stats hp_pct r c false))
                (node_base_walkres stats child b) child.triggers).logs from rfl]
      rw [htail]
      rfl
    rw [child_native_aps_eq _ _ _ hcons]
    rfl

lemma foldl_walk_step_spec (hp_pct : ℚ) (br : CoreRes) (ec : SkillNode → WalkRes) :
    ∀ (trigs : List (String × SkillNode)) (acc : WalkRes),
      (List.foldl (walk_step hp_pct br ec) acc trigs).dps
          = acc.dps + (step_contribs hp_pct br ec trigs).sum
    ∧ (List.foldl (walk_step hp_pct br ec) acc trigs).logs.map LogEntry.dps
          = acc.logs.map LogEntry.dps ++ (step_contribs hp_pct br ec trigs).map py_int := by
  intro trigs
  induction trigs with
  | nil =>
    intro acc
    exact ⟨by simp [step_contribs], by simp [step_contribs]⟩
  | cons t rest ih =>
    intro acc
    rw [List.foldl_cons]
    by_cases hf : cond_rate t.1 br.aps br.crit_rate hp_pct ≤ 0
    · have hstep : walk_step hp_pct br ec acc t = acc := by
        unfold walk_step; rw [if_pos hf]
      have hcontrib : step_contribs hp_pct br ec (t :: rest)
          = step_contribs hp_pct br ec rest := by
        simp [step_contribs, hf]
      rw [hstep, hcontrib]
      exact ih acc
    · obtain ⟨ih1, ih2⟩ := ih (walk_step hp_pct br ec acc t)
      have hdps : (walk_step hp_pct br ec acc t).dps
          = acc.dps + (ec t.2).dps / child_native_aps (ec t.2)
              * cond_rate t.1 br.aps br.crit_rate hp_pct := by
        unfold walk_step; rw [if_neg hf]
      have hlogs : (walk_step hp_pct br ec acc t).logs.map LogEntry.dps
          = acc.logs.map LogEntry.dps
            ++ [py_int ((ec t.2).dps / child_native_aps (ec t.2)
                  * cond_rate t.1 br.aps br.crit_rate hp_pct)] := by
        unfold walk_step; rw [if_neg hf]; simp
      have hcontrib : step_contribs hp_pct br ec (t :: rest)
          = ((ec t.2).dps / child_native_aps (ec t.2)
              * cond_rate t.1 br.aps br.crit_rate hp_pct)
            :: step_contribs hp_pct br ec rest := by
        simp [step_contribs, hf]
      constructor
      · rw [ih1, hdps, hcontrib, List.sum_cons]
        ring
      · rw [ih2, hlogs, hcontrib, List.map_cons, List.append_assoc]
        rfl

/-- C7 counterexample: the total dps returned by the tree evaluation is NOT
the sum of the logged `dps` fields — those are `int(...)`-truncated
(total 102.5 vs logged 102 for a single-node tree). -/
theorem dps_log_sum_cex :
    ¬ ((simulate_chain_with_profile [] 1 flatNode 1).dps
        = ((simulate_chain_with_profile [] 1 flatNode 1).logs.map
            (fun e => (e.dps : ℚ))).sum) := by
  with_unfolding_all decide

/-- C7 corrected: the total dps equals the sum of the EXACT per-entry
contributions (`walk_exact_contribs`: the root's own dps plus one exact
contribution per processed trigger edge), and each logged `dps` field is
the `int(...)` truncation of exactly its entry's contribution; the sum of
the logged integers itself can fall short by the truncation error. -/
theorem dps_additivity_exact (stats : StatTable) (hp_pct : ℚ)
    (root : SkillNode) (md : ℕ) :
    (simulate_chain_with_profile stats hp_pct root md).dps
        = (walk_exact_contribs stats hp_pct root md).sum
  ∧ (simulate_chain_with_profile stats hp_pct root md).logs.map LogEntry.dps
        = (walk_exact_contribs stats hp_pct root md).map py_int := by
  cases md with
  | zero =>
    constructor
    · show (node_base_walkres stats root true).dps = _
      simp [walk_exact_contribs, node_base_walkres]
    · show (node_base_walkres stats root true).logs.map LogEntry.dps = _
      simp [walk_exact_contribs, node_base_walkres]
  | succ r =>
    obtain ⟨h1, h2⟩ := foldl_walk_step_spec hp_pct (node_base_res stats root)
      (fun c => walk stats hp_pct r c false) root.triggers
      (node_base_walkres stats root true)
    have e : simulate_chain_with_profile stats hp_pct root (r + 1)
        = List.foldl
            (walk_step hp_pct (node_base_res stats root)
              (fun c => walk stats hp_pct r c false))
            (node_base_walkres stats root true) root.triggers := rfl
    constructor
    · rw [e, h1]
      simp [walk_exact_contribs, node_base_walkres]
    · rw [e, h2]
      simp [walk_exact_contribs, node_base_walkres]

set_option maxRecDepth 10000 in
/-- C1 counterexample: with a child whose exact resolved `atk_spd` is 1.234,
the triggered contribution is NOT `(child_dps / exact_atk_spd) x proc_rate`
(the engine divides by the 2-decimal logged value 1.23 instead: total
616/3 ~ 205.33 versus the claimed 205). -/
theorem trigger_rounded_aps_cex :
    cond_rate "on_hit" (node_base_res cexStats cexParent).aps
        (node_base_res cexStats cexParent).crit_rate 1 = 1
  ∧ dictGetD (apply_modifier_stats cexStats cexChild.modifiers) "atk_spd" 1 = 1234/1000
  ∧ (simulate_chain_with_profile cexStats 1 cexParent 1).dps
      ≠ (node_base_res cexStats cexParent).dps
        + (simulate_chain_with_profile cexStats 1 cexChild 0).dps
            / dictGetD (apply_modifier_stats cexStats cexChild.modifiers) "atk_spd" 1
          * cond_rate "on_hit" (node_base_res cexStats cexParent).aps
              (node_base_res cexStats cexParent).crit_rate 1 := by
  with_unfolding_all decide

/-- C1 corrected: for a processed trigger edge (positive proc rate), the
child's contribution to total dps is `child_dps / a x proc_rate` where `a`
is NOT the child's exact resolved `atk_spd` but the value recovered from
the child's log line: its attack rate rounded to two decimals
(`round2`), replaced by 1 when not positive (`aps_fallback`). -/
theorem trigger_contribution_formula (stats : StatTable) (hp_pct : ℚ)
    (pskill : Skill) (pmods : List Modifier) (cond : String) (child : SkillNode)
    (r : ℕ)
    (hfreq : 0 < cond_rate cond
        (node_base_res stats (.mk pskill pmods [(cond, child)])).aps
        (node_base_res stats (.mk pskill pmods [(cond, child)])).crit_rate hp_pct) :
    (simulate_chain_with_profile stats hp_pct (.mk pskill pmods [(cond, child)]) (r+1)).dps
      = (node_base_res stats (.mk pskill pmods [(cond, child)])).dps
        + (walk stats hp_pct r child false).dps
            / aps_fallback (round2 (node_base_res stats child).aps)
          * cond_rate cond
              (node_base_res stats (.mk pskill pmods [(cond, child)])).aps
              (node_base_res stats (.mk pskill pmods [(cond, child)])).crit_rate hp_pct := by
  have hns : ¬ cond_rate cond
      (node_base_res stats (.mk pskill pmods [(cond, child)])).aps
      (node_base_res stats (.mk pskill pmods [(cond, child)])).crit_rate hp_pct ≤ 0 :=
    not_le.mpr hfreq
  have h := (foldl_walk_step_spec hp_pct
    (node_base_res stats (.mk pskill pmods [(cond, child)]))
    (fun c => walk stats hp_pct r c false) [(cond, child)]
    (node_base_walkres stats (.mk pskill pmods [(cond, child)]) true)).1
  have e : simulate_chain_with_profile stats hp_pct (.mk pskill pmods [(cond, child)]) (r + 1)
      = List.foldl
          (walk_step hp_pct (node_base_res stats (.mk pskill pmods [(cond, child)]))
            (fun c => walk stats hp_pct r c false))
          (node_base_walkres stats (.mk pskill pmods [(cond, child)]) true)
          [(cond, child)] := rfl
  rw [e, h]
  rw [show step_contribs hp_pct
        (node_base_res stats (.mk pskill pmods [(cond, child)]))
        (fun c => walk stats hp_pct r c false) [(cond, child)]
      = [(walk stats hp_pct r child false).dps
          / child_native_aps (walk stats hp_pct r child false)
          * cond_rate cond
              (node_base_res stats (.mk pskill pmods [(cond, child)])).aps
              (node_base_res stats (.mk pskill pmods [(cond, child)])).crit_rate hp_pct]
    from by simp [step_contribs, hns]]
  rw [child_native_aps_walk]
  simp [node_base_walkres]

set_option maxRecDepth 10000 in
/-- Witness for C1: the corrected formula evaluated on the 1.234-aps chain. -/
theorem trigger_contribution_formula_witness :
    0 < cond_rate "on_hit" (node_base_res cexStats cexParent).aps
        (node_base_res cexStats cexParent).crit_rate 1
  ∧ (simulate_chain_with_profile cexStats 1 cexParent 1).dps
      = (node_base_res cexStats cexParent).dps
        + (walk cexStats 1 0 cexChild false).dps
            / aps_fallback (round2 (node_base_res cexStats cexChild).aps)
          * cond_rate "on_hit" (node_base_res cexStats cexParent).aps
              (node_base_res cexStats cexParent).crit_rate 1 :=
  ⟨by with_unfolding_all decide,
   trigger_contribution_formula cexStats 1 flatSkill [] "on_hit" cexChild 0
     (by with_unfolding_all decide)⟩

set_option maxRecDepth 10000 in
/-- C3 counterexample: a first tick in which BOTH healths drop to or below
zero ends in LOSE with reason `hero_dead` (the source checks hero death
first, the claim says enemy death / WIN is checked first); and a run that
exhausts the clock reports reason `damage_insufficient`, not a `timeout`
tag. The third conjunct shows the enemy was indeed dead in that same
first tick. -/
theorem both_dead_lose_cex :
    (simulate_mvp_fight fightStats flatNode 1 1000 1 (1/10) 0 4 (5/2) 1 0).1.result = "LOSE"
  ∧ (simulate_mvp_fight fightStats flatNode 1 1000 1 (1/10) 0 4 (5/2) 1 0).1.reason = "hero_dead"
  ∧ ((1:ℚ) - (simulate_chain_with_profile fightStats 1 flatNode 1).dps * (1/10) ≤ 0)
  ∧ (simulate_mvp_fight fightStats flatNode 3000 0 (1/10) (1/10) 0 4 (5/2) 1 0).1.result
      = "TIMEOUT"
  ∧ (simulate_mvp_fight fightStats flatNode 3000 0 (1/10) (1/10) 0 4 (5/2) 1 0).1.reason
      = "damage_insufficient" := by
  with_unfolding_all decide

/-- C3 corrected: the per-tick termination behaviour of the fight loop.
When the tick runs (`time < max_time`), hero death after damage and
healing is checked FIRST and yields LOSE / `hero_dead` at the current
time (so a tick where both die is a LOSE); only then enemy death yields
WIN / `enemy_dead`; otherwise the loop continues. When the loop condition
fails, the result is TIMEOUT at `round(max_time, 2)` with reason
`damage_insufficient`. -/
theorem fight_termination_cases (p : FightParams) (fuel : ℕ) (st : FightState)
    (rng : Rng) :
    ((fight_loop p (fuel + 1) st rng).1.result,
     (fight_loop p (fuel + 1) st rng).1.reason,
     (fight_loop p (fuel + 1) st rng).1.time)
      = if st.time < p.max_time then
          if tick_hero_hp2 p st ≤ 0 then ("LOSE", "hero_dead", round2 st.time)
          else if tick_enemy_hp p st ≤ 0 then ("WIN", "enemy_dead", round2 st.time)
          else ((fight_loop p fuel (next_state p st) rng).1.result,
                (fight_loop p fuel (next_state p st) rng).1.reason,
                (fight_loop p fuel (next_state p st) rng).1.time)
        else ("TIMEOUT", "damage_insufficient", round2 p.max_time) := by
  by_cases h1 : st.time < p.max_time
  · by_cases h2 : tick_hero_hp2 p st ≤ 0
    · simp [fight_loop, h1, h2, lose_result, mk_fight_result]
    · by_cases h3 : tick_enemy_hp p st ≤ 0
      · simp [fight_loop, h1, h2, h3, win_result, mk_fight_result]
      · simp [fight_loop, h1, h2, h3]
  · simp [fight_loop, h1, timeout_result, mk_fight_result]

lemma fight_loop_rng_free (p : FightParams) :
    ∀ (fuel : ℕ) (st : FightState) (rng rng' : Rng),
      (fight_loop p fuel st rng).1 = (fight_loop p fuel st rng').1
    ∧ (fight_loop p fuel st rng).2 = rng := by
  intro fuel
  induction fuel with
  | zero => intro st rng rng'; exact ⟨rfl, rfl⟩
  | succ n ih =>
    intro st rng rng'
    by_cases h1 : st.time < p.max_time
    · by_cases h2 : tick_hero_hp2 p st ≤ 0
      · exact ⟨by simp [fight_loop, h1, h2], by simp [fight_loop, h1, h2]⟩
      · by_cases h3 : tick_enemy_hp p st ≤ 0
        · exact ⟨by simp [fight_loop, h1, h2, h3], by simp [fight_loop, h1, h2, h3]⟩
        · refine ⟨?_, ?_⟩
          · simpa [fight_loop, h1, h2, h3] using (ih (next_state p st) rng rng').1
          · simpa [fight_loop, h1, h2, h3] using (ih (next_state p st) rng rng').2
    · exact ⟨by simp [fight_loop, h1], by simp [fight_loop, h1]⟩

/-- C4: determinism of `simulate_mvp_fight`. The result record is a pure
function of the inputs: it does not depend on the RNG state at all (the
seeded generator is created but never drawn from — the returned RNG state
is the one passed in, unchanged), so two runs with identical inputs return
equal records and in particular the identical `result_hash` fingerprint. -/
theorem fight_deterministic (stats : StatTable) (root : SkillNode)
    (enemy_hp enemy_dps max_time dt : ℚ) (seed : ℤ) (bci bcm : ℚ) (md : ℕ)
    (rng rng' : Rng) :
    (simulate_mvp_fight stats root enemy_hp enemy_dps max_time dt seed bci bcm md rng).1
      = (simulate_mvp_fight stats root enemy_hp enemy_dps max_time dt seed bci bcm md rng').1
  ∧ (simulate_mvp_fight stats root enemy_hp enemy_dps max_time dt seed bci bcm md rng).2 = rng
  ∧ (simulate_mvp_fight stats root enemy_hp enemy_dps max_time dt seed bci bcm md
        rng).1.result_hash
      = (simulate_mvp_fight stats root enemy_hp enemy_dps max_time dt seed bci bcm md
          rng').1.result_hash := by
  have h := fight_loop_rng_free
    ⟨stats, root, enemy_dps, max_time, dt, seed, bci, bcm, md⟩
    (fight_fuel max_time dt)
    ⟨0, dictGetD stats "max_hp" 500, dictGetD stats "max_hp" 500, enemy_hp, -bci, [], [], []⟩
    rng rng'
  exact ⟨h.1, h.2, congrArg FightResult.result_hash h.1⟩

lemma tick_incoming_nonneg (p : FightParams) (st : FightState)
    (hdps : 0 ≤ p.enemy_dps) (hdt : 0 ≤ p.dt) (hbcm : 0 ≤ p.boss_crit_mult) :
    0 ≤ tick_incoming p st := by
  unfold tick_incoming
  split
  · exact mul_nonneg (mul_nonneg hdps hdt) hbcm
  · exact mul_nonneg hdps hdt

lemma tick_final_mult_nonneg (p : FightParams) (st : FightState) :
    0 ≤ tick_final_mult p st :=
  le_trans (by norm_num : (0:ℚ) ≤ 1/10) (le_max_left _ _)

lemma tick_hero_hp2_le (p : FightParams) (st : FightState)
    (hdps : 0 ≤ p.enemy_dps) (hdt : 0 ≤ p.dt) (hbcm : 0 ≤ p.boss_crit_mult)
    (h : st.hero_hp ≤ st.hero_max_hp) :
    tick_hero_hp2 p st ≤ st.hero_max_hp := by
  unfold tick_hero_hp2
  split
  · exact min_le_left _ _
  · unfold tick_hero_hp1
    have := mul_nonneg (tick_incoming_nonneg p st hdps hdt hbcm)
      (tick_final_mult_nonneg p st)
    linarith

lemma timeline_entry_hero_le (p : FightParams) (st : FightState)
    (hM : 0 ≤ st.hero_max_hp) (h2 : tick_hero_hp2 p st ≤ st.hero_max_hp) :
    ((tick_timeline_entry p st).hero_hp : ℚ) ≤ st.hero_max_hp := by
  have hfield : (tick_timeline_entry p st).hero_hp
      = py_int (max (tick_hero_hp2 p st) 0) := rfl
  have h0 : (0:ℚ) ≤ max (tick_hero_hp2 p st) 0 := le_max_right _ _
  have hflr : py_int (max (tick_hero_hp2 p st) 0) = ⌊max (tick_hero_hp2 p st) 0⌋ := by
    unfold py_int; rw [if_pos h0]
  rw [hfield, hflr]
  calc ((⌊max (tick_hero_hp2 p st) 0⌋ : ℤ) : ℚ)
      ≤ max (tick_hero_hp2 p st) 0 := Int.floor_le _
    _ ≤ st.hero_max_hp := max_le h2 hM

lemma fight_loop_hero_bound (p : FightParams)
    (hdps : 0 ≤ p.enemy_dps) (hdt : 0 ≤ p.dt) (hbcm : 0 ≤ p.boss_crit_mult) :
    ∀ (fuel : ℕ) (st : FightState) (rng : Rng),
      st.hero_hp ≤ st.hero_max_hp → 0 ≤ st.hero_max_hp →
      (∀ e ∈ st.timeline, (e.hero_hp : ℚ) ≤ st.hero_max_hp) →
      ∀ e ∈ (fight_loop p fuel st rng).1.timeline, (e.hero_hp : ℚ) ≤ st.hero_max_hp := by
  intro fuel
  induction fuel with
  | zero =>
    intro st rng hhp hM htl
    simpa [fight_loop, timeout_result, mk_fight_result] using htl
  | succ n ih =>
    intro st rng hhp hM htl
    have hentry : ((tick_timeline_entry p st).hero_hp : ℚ) ≤ st.hero_max_hp :=
      timeline_entry_hero_le p st hM (tick_hero_hp2_le p st hdps hdt hbcm hhp)
    by_cases h1 : st.time < p.max_time
    · by_cases h2 : tick_hero_hp2 p st ≤ 0
      · intro e he
        simp [fight_loop, h1, h2, lose_result, mk_fight_result] at he
        rcases he with he | he
        · exact htl e he
        · rw [he]; exact hentry
      · by_cases h3 : tick_enemy_hp p st ≤ 0
        · intro e he
          simp [fight_loop, h1, h2, h3, win_result, mk_fight_result] at he
          rcases he with he | he
          · exact htl e he
          · rw [he]; exact hentry
        · intro e he
          have hrec : (fight_loop p (n + 1) st rng).1
              = (fight_loop p n (next_state p st) rng).1 := by
            simp [fight_loop, h1, h2, h3]
          rw [hrec] at he
          have hnexttl : ∀ e' ∈ (next_state p st).timeline,
              (e'.hero_hp : ℚ) ≤ (next_state p st).hero_max_hp := by
            intro e' he'
            have : e' ∈ st.timeline ++ [tick_timeline_entry p st] := he'
            rcases List.mem_append.mp this with h | h
            · exact htl e' h
            · rw [List.mem_singleton.mp h]; exact hentry
          exact ih (next_state p st) rng
            (tick_hero_hp2_le p st hdps hdt hbcm hhp) hM hnexttl e he
    · intro e he
      simp [fight_loop, h1, timeout_result, mk_fight_result] at he
      exact htl e he

/-- C10: the hero's recorded health never exceeds the hero's maximum
health at any tick: the hero starts at `max_hp`, incoming damage (with
nonnegative enemy dps, time step and burst multiplier) only decreases
health, and every heal is clamped at `max_hp` and skipped at full health.
Every timeline sample therefore stays at or below `max_hp`. -/
theorem hero_hp_bounded (stats : StatTable) (root : SkillNode)
    (enemy_hp enemy_dps max_time dt : ℚ) (seed : ℤ) (bci bcm : ℚ) (md : ℕ)
    (rng : Rng)
    (hdps : 0 ≤ enemy_dps) (hdt : 0 ≤ dt) (hbcm : 0 ≤ bcm)
    (hM : 0 ≤ dictGetD stats "max_hp" 500) :
    ∀ e ∈ (simulate_mvp_fight stats root enemy_hp enemy_dps max_time dt seed
        bci bcm md rng).1.timeline,
      (e.hero_hp : ℚ) ≤ dictGetD stats "max_hp" 500 := by
  exact fight_loop_hero_bound
    ⟨stats, root, enemy_dps, max_time, dt, seed, bci, bcm, md⟩ hdps hdt hbcm
    (fight_fuel max_time dt)
    ⟨0, dictGetD stats "max_hp" 500, dictGetD stats "max_hp" 500, enemy_hp, -bci, [], [], []⟩
    rng le_rfl hM (by intro e he; exact absurd he (List.not_mem_nil e))

lemma headD_mem_of_ne_nil {A : Type} :
    ∀ (l : List A) (d : A), l ≠ [] → l.headD d ∈ l
  | [], _, h => absurd rfl h
  | a :: t, _, _ => List.mem_cons_self a t

set_option maxRecDepth 10000 in
/-- Witness for C10: a concrete one-tick fight whose recorded timeline
sample respects the hero's maximum health. -/
theorem hero_hp_bounded_witness :
    ((0:ℚ) ≤ 30 ∧ (0:ℚ) ≤ 1/10 ∧ (0:ℚ) ≤ 5/2
      ∧ (0:ℚ) ≤ dictGetD fightStats "max_hp" 500)
  ∧ ((((simulate_mvp_fight fightStats flatNode 3000 30 (1/10) (1/10) 0 4 (5/2) 1
        0).1.timeline).headD ⟨0, 0, 0, false⟩).hero_hp : ℚ)
      ≤ dictGetD fightStats "max_hp" 500 := by
  have hlen : ((simulate_mvp_fight fightStats flatNode 3000 30 (1/10) (1/10) 0 4 (5/2) 1
      0).1.timeline).length = 1 := by with_unfolding_all decide
  have hne : (simulate_mvp_fight fightStats flatNode 3000 30 (1/10) (1/10) 0 4 (5/2) 1
      0).1.timeline ≠ [] := by
    intro h
    rw [h] at hlen
    exact absurd hlen (by norm_num)
  constructor
  · exact ⟨by norm_num, by norm_num, by norm_num, by with_unfolding_all decide⟩
  · exact hero_hp_bounded fightStats flatNode 3000 30 (1/10) (1/10) 0 4 (5/2) 1 0
      (by norm_num) (by norm_num) (by norm_num) (by with_unfolding_all decide)
      _ (headD_mem_of_ne_nil _ _ hne)
